import Mathlib

/-!
Verification model of the autoclaude phase-orchestration engine.

The definitions below are a shallow embedding of the Go source:
- Go strings are modeled byte-for-byte as `List Char` (all the literals the
  program compares against are ASCII, so bytes and characters coincide).
- File reads (`os.ReadFile`) are modeled as `Option (List Char)`: `none` is
  any read error, `some data` is a successful read of `data`.
- The `strings` package helpers used by the source (`TrimSpace`, `HasPrefix`,
  `TrimPrefix`, `Contains`, `Split` on a newline, `ToLower`) are embedded as
  executable functions with the same semantics on ASCII input.
- Stats counters are Go ints that are only ever incremented from zero, far
  from overflow in every property below, so they are modeled as `Nat`.
-/

namespace Autoclaude

/-- Go string contents, modeled as a list of characters. -/
abbrev GoStr := List Char

/-- Embeds a Lean string literal as Go string contents. -/
def goStr (s : String) : GoStr := s.toList

/-- Character class trimmed by strings.TrimSpace (the ASCII white space
accepted by unicode.IsSpace; the program only ever trims ASCII). -/
def goIsSpace (c : Char) : Bool :=
  c = ' ' || c = '\t' || c = '\n' || c = Char.ofNat 11 || c = Char.ofNat 12 || c = '\r'

/-- strings.TrimSpace: drop white space from both ends. -/
def goTrimSpace (s : GoStr) : GoStr :=
  ((s.dropWhile goIsSpace).reverse.dropWhile goIsSpace).reverse

/-- strings.HasPrefix s p: p is a leading segment of s. -/
def goHasPrefix (s p : GoStr) : Bool := decide (p <+: s)

/-- strings.TrimPrefix s p: remove the leading segment p when present. -/
def goTrimPrefix (s p : GoStr) : GoStr :=
  if p <+: s then s.drop p.length else s

/-- strings.Contains s sub. -/
def goContains (s sub : GoStr) : Bool := decide (sub <:+: s)

/-- strings.ToLower (ASCII). -/
def goToLower (s : GoStr) : GoStr := s.map Char.toLower

/-- strings.Split s "\n": split on each newline, keeping empty fields. -/
def splitOnNl : GoStr → List GoStr
  | [] => [[]]
  | c :: cs =>
    if c = '\n' then [] :: splitOnNl cs
    else
      match splitOnNl cs with
      | [] => [[c]]
      | l :: ls => (c :: l) :: ls

/-- Joins lines with single newlines (inverse of `splitOnNl` on
newline-free lines); used to build concrete file contents. -/
def joinLines : List GoStr → GoStr
  | [] => []
  | [l] => l
  | l :: ls => l ++ '\n' :: joinLines ls

/-! ## Verdict store (internal/state/state.go) -/

/-- CriticVerdict constants from internal/state/state.go. -/
inductive CriticVerdict
  | approved
  | needsFixes
  | minorIssues
  | unknown
deriving DecidableEq, Repr

/-- GetCriticVerdict (internal/state/state.go): reads the critic verdict
file and classifies it by its leading bytes; a read error yields
(Unknown, ""), otherwise the full content is returned as the detail. -/
def GetCriticVerdict : Option GoStr → CriticVerdict × GoStr
  | none => (.unknown, [])
  | some content =>
    if 11 ≤ content.length ∧ content.take 11 = goStr "NEEDS_FIXES" then
      (.needsFixes, content)
    else if 12 ≤ content.length ∧ content.take 12 = goStr "MINOR_ISSUES" then
      (.minorIssues, content)
    else if 8 ≤ content.length ∧ content.take 8 = goStr "APPROVED" then
      (.approved, content)
    else
      (.unknown, content)

/-! ## Task backlog accessor (internal/state/state.go, cmd/run.go) -/

/-- The per-line test of GetNextTodo's scan loop: the trimmed line starts
with the unchecked box marker. -/
def isUncheckedTodoLine (line : GoStr) : Bool :=
  goHasPrefix (goTrimSpace line) (goStr "- [ ]")

/-- GetNextTodo (internal/state/state.go): scan TODO.md top to bottom and
return the first line whose trimmed form starts with the unchecked box
marker, with the marker stripped; read errors and an all-checked file give
the source's sentinel strings. -/
def GetNextTodo : Option GoStr → GoStr
  | none => goStr "(unknown)"
  | some data =>
    match (splitOnNl data).find? isUncheckedTodoLine with
    | some line => goTrimSpace (goTrimPrefix (goTrimSpace line) (goStr "- [ ]"))
    | none => goStr "(no incomplete TODOs)"

/-- hasPendingTasks (cmd/run.go): the pending_tasks file must read exactly
"yes" (after trimming); any read error counts as no pending work. -/
def hasPendingTasks (readRes : Option GoStr) : Bool :=
  match readRes with
  | none => false
  | some data => decide (goTrimSpace data = goStr "yes")

/-- hasIncompleteTodos (cmd/run.go): TODO.md contains an unchecked box;
any read error counts as no incomplete TODOs. -/
def hasIncompleteTodos (readRes : Option GoStr) : Bool :=
  match readRes with
  | none => false
  | some data => goContains data (goStr "- [ ]")

/-! ## Spec-side task model for the backlog refinement claim -/

/-- Task priority from the spec data model. -/
inductive Priority
  | high
  | medium
  | low
deriving DecidableEq, Repr

/-- Task status from the spec data model. -/
inductive TaskStatus
  | pending
  | completed
deriving DecidableEq, Repr

/-- Task from the spec data model: subject, status, priority. -/
structure Task where
  subject : GoStr
  status : TaskStatus
  priority : Priority
deriving DecidableEq, Repr

/-- Rank used to compare priorities: high before medium before low. -/
def priRank : Priority → Nat
  | .high => 0
  | .medium => 1
  | .low => 2

/-- Modelled from the spec: nextTask() returns, among all pending tasks,
the first by priority (high before medium before low) and, within equal
priority, first by declaration order. -/
def specNextTask (backlog : List Task) : Option Task :=
  let pend := backlog.filter (fun t => t.status = TaskStatus.pending)
  pend.find? (fun t => pend.all (fun u => priRank t.priority ≤ priRank u.priority))

/-- Priority line of a task entry, per the TODO.md format documented in
internal/prompt/prompt.go (planner template). -/
def priorityLine : Priority → GoStr
  | .high => goStr "  - Priority: high"
  | .medium => goStr "  - Priority: medium"
  | .low => goStr "  - Priority: low"

/-- Lines of one task entry in the documented TODO.md format: a checkbox
line with the bold subject, then an indented priority line. -/
def renderTaskLines (t : Task) : List GoStr :=
  match t.status with
  | .pending =>
      [goStr "- [ ] " ++ (goStr "**" ++ t.subject ++ goStr "**"), priorityLine t.priority]
  | .completed =>
      [goStr "- [x] " ++ (goStr "**" ++ t.subject ++ goStr "**"), priorityLine t.priority]

/-- Header lines of TODO.md per the documented format. -/
def todoHeaderLines : List GoStr :=
  [goStr "# TODOs", [], goStr "## Pending"]

/-- All lines of a TODO.md file listing the backlog in declaration order. -/
def todoLines (backlog : List Task) : List GoStr :=
  todoHeaderLines ++ backlog.flatMap renderTaskLines

/-- A TODO.md file listing the backlog in declaration order, in the format
documented in the planner template. -/
def renderTodoMd (backlog : List Task) : GoStr :=
  joinLines (todoLines backlog)

/-! ## Run statistics and the retry/fix controller (cmd/run.go) -/

/-- maxFixRetries constant from cmd/run.go. -/
def maxFixRetries : Nat := 3

/-- Stats from internal/state/state.go. -/
structure Stats where
  claudeRuns : Nat
  todosCompleted : Nat
  todosAttempted : Nat
  criticApprovals : Nat
  criticRejections : Nat
  criticMinor : Nat
  fixAttempts : Nat
  fixSuccesses : Nat
deriving DecidableEq, Repr

/-- Fresh stats, as reset at the start of runRun (cmd/run.go). -/
def freshStats : Stats := ⟨0, 0, 0, 0, 0, 0, 0, 0⟩

/-- Outcome of the per-task critic/fix inner loop of runRun (cmd/run.go):
final stats, number of critic invocations, number of fixer invocations,
and the wasApproved flag. -/
structure CycleResult where
  stats : Stats
  criticRuns : Nat
  fixerRuns : Nat
  wasApproved : Bool
deriving DecidableEq, Repr

/-- Inner loop of runRun (cmd/run.go): for retry := 0; retry < maxFixRetries;
retry++ run the critic, then dispatch on the verdict. The critic verdict of
attempt i is supplied by the oracle verdictAt i (it is whatever the critic
wrote into the verdict file on that attempt). The loop is embedded with its
remaining iteration count (maxFixRetries - retry) as the structural argument;
the retry counter itself is passed unchanged so every test in the body reads
exactly as in the source. Each critic or fixer invocation goes through
runClaudePhase, which increments stats.ClaudeRuns. State persistence and git
checkpointing inside the loop touch neither the stats nor the phase counts
and are modeled separately. -/
def criticCycleFrom (verdictAt : Nat → CriticVerdict) :
    Nat → Nat → Stats → CycleResult
  | 0, _, st => ⟨st, 0, 0, false⟩
  | rem + 1, retry, st =>
    let st := { st with claudeRuns := st.claudeRuns + 1 }
    match verdictAt retry with
    | .approved =>
      let st := { st with criticApprovals := st.criticApprovals + 1,
                          todosCompleted := st.todosCompleted + 1 }
      let st := if 0 < retry then { st with fixSuccesses := st.fixSuccesses + 1 } else st
      ⟨st, 1, 0, true⟩
    | .minorIssues =>
      let st := { st with criticMinor := st.criticMinor + 1,
                          todosCompleted := st.todosCompleted + 1 }
      let st := if 0 < retry then { st with fixSuccesses := st.fixSuccesses + 1 } else st
      ⟨st, 1, 0, true⟩
    | .needsFixes =>
      let st := { st with criticRejections := st.criticRejections + 1 }
      if retry < maxFixRetries - 1 then
        let st := { st with fixAttempts := st.fixAttempts + 1 }
        let st := { st with claudeRuns := st.claudeRuns + 1 }
        let r := criticCycleFrom verdictAt rem (retry + 1) st
        ⟨r.stats, r.criticRuns + 1, r.fixerRuns + 1, r.wasApproved⟩
      else
        ⟨st, 1, 0, false⟩
    | .unknown =>
      if retry < maxFixRetries - 1 then
        let r := criticCycleFrom verdictAt rem (retry + 1) st
        ⟨r.stats, r.criticRuns + 1, r.fixerRuns, r.wasApproved⟩
      else
        ⟨st, 1, 0, false⟩

/-- The critic/fix inner loop entered at retry = 0, as runRun does. -/
def criticCycle (verdictAt : Nat → CriticVerdict) (st : Stats) : CycleResult :=
  criticCycleFrom verdictAt maxFixRetries 0 st

/-- One iteration of the outer task loop of runRun (cmd/run.go): count the
task as attempted, run the coder once (a Claude invocation), then run the
critic/fix inner loop. -/
def taskStep (verdictAt : Nat → CriticVerdict) (st : Stats) : CycleResult :=
  let st := { st with todosAttempted := st.todosAttempted + 1 }
  let st := { st with claudeRuns := st.claudeRuns + 1 }
  criticCycle verdictAt st

/-- Accumulated phase-invocation counts of the outer loop. -/
structure LoopCounts where
  coderRuns : Nat
  criticRuns : Nat
  fixerRuns : Nat
deriving DecidableEq, Repr

/-- Zero phase counts. -/
def noRuns : LoopCounts := ⟨0, 0, 0⟩

/-- Outer loop of runRun (cmd/run.go): for hasPendingTasks() process one
task and repeat. pendingRead k is the content of the pending_tasks file at
the k-th check; verdicts k is the critic-verdict oracle for the k-th task.
fuel bounds the number of loop entries modeled; none means the loop was
still running after fuel entries, some (st, c) means the loop exited toward
the evaluator with final stats st and phase counts c. -/
def runLoop (pendingRead : Nat → Option GoStr) (verdicts : Nat → Nat → CriticVerdict) :
    Nat → Nat → Stats → LoopCounts → Option (Stats × LoopCounts)
  | 0, _, _, _ => none
  | fuel + 1, k, st, c =>
    if hasPendingTasks (pendingRead k) then
      let r := taskStep (verdicts k) st
      runLoop pendingRead verdicts fuel (k + 1) r.stats
        ⟨c.coderRuns + 1, c.criticRuns + r.criticRuns, c.fixerRuns + r.fixerRuns⟩
    else
      some (st, c)

/-! ## Commit enforcer (cmd/run.go) -/

/-- Version-control state seen through the git commands the source runs:
the commit list identifies the head (git rev-parse), and dirty is whether
git status --porcelain prints anything. -/
structure GitState where
  commits : List GoStr
  dirty : Bool
deriving DecidableEq, Repr

/-- getCommitHash (cmd/run.go): identifies the current head. Short hashes
are modeled as the commit history itself, i.e. hashing is injective. -/
def getCommitHash (g : GitState) : List GoStr := g.commits

/-- Commit message synthesized by forceCommit (cmd/run.go). -/
def forceCommitMsg (phase : GoStr) : GoStr :=
  goStr "autoclaude: " ++ goToLower phase ++ goStr " changes (auto-committed)"

/-- forceCommit (cmd/run.go): with a clean tree it does nothing; otherwise
it stages everything and makes one commit with the synthesized message,
leaving the tree clean. Returns the new git state and how many commits were
made. -/
def forceCommit (phase : GoStr) (g : GitState) : GitState × Nat :=
  if g.dirty = false then (g, 0)
  else (⟨forceCommitMsg phase :: g.commits, false⟩, 1)

/-- checkCommitCreated (cmd/run.go): if the head is unchanged from the
recorded before marker, force a commit. -/
def checkCommitCreated (beforeHash : List GoStr) (phase : GoStr) (g : GitState) :
    GitState × Nat :=
  if getCommitHash g = beforeHash then forceCommit phase g else (g, 0)

/-! ## Run state persistence (internal/state/state.go) -/

/-- State.Save (internal/state/state.go) marshals the record and writes it
with a single os.WriteFile call. os.WriteFile opens the file with
O_WRONLY, O_CREATE and O_TRUNC and then writes the bytes, so the file
content observably passes through the truncated empty state between the old
content and the new data. This lists the observable file contents, in
order, across one Save of marshalled bytes data over old content old. -/
def saveObservableContents (old data : GoStr) : List GoStr :=
  [old, [], data]

/-! ## Control-handoff bridge (cmd/evaluator_done.go, planner/continue hooks) -/

/-- Stop-hook input decoded from stdin. The Go sources declare this struct
per hook (StopHookInput, PlannerHookInput, EvaluatorHookInput); the fields
the bridges read are identical, so one record models all of them. -/
structure HookInput where
  sessionId : GoStr
  transcriptPath : GoStr
  stopHookActive : Bool
  stopReason : GoStr
  lastAssistantMessage : GoStr
deriving DecidableEq, Repr

/-- The zero value json.Unmarshal leaves when the payload is empty or does
not parse. -/
def zeroHookInput : HookInput := ⟨[], [], false, [], []⟩

/-- Result of reading the bridge's stdin: readError is a failing
io.ReadAll; content (some h) is a payload that parses to h; content none is
an empty or unparseable payload, which the sources ignore, keeping the zero
value. -/
inductive StdinRead
  | readError
  | content (parsed : Option HookInput)
deriving DecidableEq, Repr

/-- Stop-hook decision emitted on stdout. allow is the empty StopHookOutput
(no decision field), which lets the agent stop; block carries a reason. -/
inductive Decision
  | allow
  | block (reason : GoStr)
deriving DecidableEq, Repr

/-- What one bridge invocation did: the decision it emitted and whether it
invoked claude.KillClaude (the termination action). -/
structure BridgeOutcome where
  decision : Decision
  killed : Bool
deriving DecidableEq, Repr

/-- The State record (internal/state/state.go) as the bridges read it.
Step is a Go string; the ints are Go ints. -/
structure StateRec where
  step : GoStr
  iteration : Int
  maxIterations : Int
  goal : GoStr
  testCmd : GoStr
  constraints : GoStr
  lastCommit : GoStr
  retryCount : Int
  lastError : GoStr
deriving DecidableEq, Repr

/-- Result of a Go call that can fail with an error message. -/
inductive GoRes
  | ok (val : GoStr)
  | err (msg : GoStr)
deriving DecidableEq, Repr

/-- The durable environment a bridge invocation reads: the state record
(none when state.json is missing or unparseable), the outcome of s.Save(),
the prompt files, TODO.md, and the presence of the two control marker
files. git and notes side effects influence neither the decision nor the
termination action and are not tracked. -/
structure BridgeEnv where
  stateRead : Option StateRec
  saveRes : Option GoStr
  criticPrompt : GoRes
  coderPrompt : GoRes
  evalPrompt : GoRes
  todoRead : Option GoStr
  planningComplete : Bool
  evaluationComplete : Bool
deriving DecidableEq, Repr

/-- outputBlockWithCommand (first continue hook): block with the reason
followed by the new prompt. -/
def outputBlockWithCommand (prompt reason : GoStr) : Decision :=
  .block (reason ++ goStr "\n\n" ++ prompt)

/-- hasIncompleteTodos of the first continue hook (returns the flag and an
error); on error the caller only logs, so the flag, false, is what is used. -/
def hasIncompleteTodosErr (readRes : Option GoStr) : Bool :=
  match readRes with
  | none => false
  | some data => goContains data (goStr "- [ ]")

/-- handleCoderDone of the first continue hook: auto-commit (logged only),
move to critic, save, then block with the critic prompt as the next command. -/
def handleCoderDone (env : BridgeEnv) : Decision :=
  match env.saveRes with
  | some e => .block (goStr "Failed to save state: " ++ e)
  | none =>
    match env.criticPrompt with
    | .err e => .block (goStr "Failed to load critic prompt: " ++ e)
    | .ok p => outputBlockWithCommand p (goStr "Review the changes made by the coder")

/-- handleCriticDone of the first continue hook. -/
def handleCriticDone (env : BridgeEnv) (s : StateRec) : Decision :=
  if hasIncompleteTodosErr env.todoRead then
    if s.maxIterations ≤ s.iteration then
      match env.saveRes with
      | some e => .block (goStr "Failed to save state: " ++ e)
      | none => .allow
    else
      match env.saveRes with
      | some e => .block (goStr "Failed to save state: " ++ e)
      | none =>
        match env.coderPrompt with
        | .err e => .block (goStr "Failed to load coder prompt: " ++ e)
        | .ok p => outputBlockWithCommand p (goStr "Continue working on remaining TODOs")
  else
    match env.saveRes with
    | some e => .block (goStr "Failed to save state: " ++ e)
    | none =>
      match env.evalPrompt with
      | .err e => .block (goStr "Failed to load evaluator prompt: " ++ e)
      | .ok p => outputBlockWithCommand p (goStr "Evaluate if the goal is fully achieved")

/-- handleEvaluatorDone of the first continue hook. -/
def handleEvaluatorDone (env : BridgeEnv) (s : StateRec) : Decision :=
  if hasIncompleteTodosErr env.todoRead ∧ s.iteration < s.maxIterations then
    match env.saveRes with
    | some e => .block (goStr "Failed to save state: " ++ e)
    | none =>
      match env.coderPrompt with
      | .err e => .block (goStr "Failed to load coder prompt: " ++ e)
      | .ok p => outputBlockWithCommand p (goStr "Work on newly added TODOs")
  else
    match env.saveRes with
    | some e => .block (goStr "Failed to save state: " ++ e)
    | none => .allow

/-- runContinue, first version (the prompt-chaining stop hook): a failing
stdin read blocks with "Failed to read stdin"; stop_hook_active set, or no
readable state, allows; otherwise it dispatches on the recorded step. It
never calls KillClaude. -/
def runContinueV1 (stdin : StdinRead) (env : BridgeEnv) : BridgeOutcome :=
  match stdin with
  | .readError => ⟨.block (goStr "Failed to read stdin"), false⟩
  | .content parsed =>
    let hookInput := parsed.getD zeroHookInput
    if hookInput.stopHookActive then ⟨.allow, false⟩
    else
      match env.stateRead with
      | none => ⟨.allow, false⟩
      | some s =>
        if s.step = goStr "coder" then ⟨handleCoderDone env, false⟩
        else if s.step = goStr "critic" then ⟨handleCriticDone env s, false⟩
        else if s.step = goStr "evaluator" then ⟨handleEvaluatorDone env s, false⟩
        else ⟨.allow, false⟩

/-- runContinue, second version (the kill-based stop hook, cmd/run.go era):
a failing stdin read allows; stop_hook_active set, or no readable state,
allows; otherwise it auto-commits when the step is coder (logged only),
saves, kills the Claude process, and allows. -/
def runContinueV2 (stdin : StdinRead) (env : BridgeEnv) : BridgeOutcome :=
  match stdin with
  | .readError => ⟨.allow, false⟩
  | .content parsed =>
    let hookInput := parsed.getD zeroHookInput
    if hookInput.stopHookActive then ⟨.allow, false⟩
    else
      match env.stateRead with
      | none => ⟨.allow, false⟩
      | some _ => ⟨.allow, true⟩

/-- runEvaluatorDone (cmd/evaluator_done.go): a failing stdin read allows;
stop_hook_active set allows; otherwise it kills the Claude process exactly
when the evaluation_complete marker exists, and allows. -/
def runEvaluatorDone (stdin : StdinRead) (env : BridgeEnv) : BridgeOutcome :=
  match stdin with
  | .readError => ⟨.allow, false⟩
  | .content parsed =>
    let hookInput := parsed.getD zeroHookInput
    if hookInput.stopHookActive then ⟨.allow, false⟩
    else ⟨.allow, env.evaluationComplete⟩

/-- runPlannerDone, unconditional-kill version: after the stdin and
stop_hook_active guards it always kills the Claude process and allows. -/
def runPlannerDoneV1 (stdin : StdinRead) : BridgeOutcome :=
  match stdin with
  | .readError => ⟨.allow, false⟩
  | .content parsed =>
    let hookInput := parsed.getD zeroHookInput
    if hookInput.stopHookActive then ⟨.allow, false⟩
    else ⟨.allow, true⟩

/-- runPlannerDone, marker version: after the guards it kills the Claude
process exactly when the planning_complete marker exists, and allows. -/
def runPlannerDoneV2 (stdin : StdinRead) (env : BridgeEnv) : BridgeOutcome :=
  match stdin with
  | .readError => ⟨.allow, false⟩
  | .content parsed =>
    let hookInput := parsed.getD zeroHookInput
    if hookInput.stopHookActive then ⟨.allow, false⟩
    else ⟨.allow, env.planningComplete⟩

/-- runPlannerDone, message-heuristic version (cmd/planner_done.go): every
path allows and nothing is ever killed; the last-assistant-message check
only selects between identical allow exits. -/
def runPlannerDoneV3 (stdin : StdinRead) : BridgeOutcome :=
  match stdin with
  | .readError => ⟨.allow, false⟩
  | .content parsed =>
    let hookInput := parsed.getD zeroHookInput
    if hookInput.stopHookActive then ⟨.allow, false⟩
    else if hookInput.lastAssistantMessage ≠ [] ∧
        (goContains (goToLower hookInput.lastAssistantMessage) (goStr "plan look") ||
         goContains (goToLower hookInput.lastAssistantMessage) (goStr "ready") ||
         goContains (goToLower hookInput.lastAssistantMessage) (goStr "proceed") ||
         goContains (goToLower hookInput.lastAssistantMessage) (goStr "adjust")) = true then
      ⟨.allow, false⟩
    else ⟨.allow, false⟩

end Autoclaude

namespace Autoclaude

/-! ## General lemmas about the embedded string helpers -/

/-- The length-and-take test the source uses for leading keywords is
exactly the prefix relation. -/
theorem takeCond_iff (p s : GoStr) :
    (p.length ≤ s.length ∧ s.take p.length = p) ↔ p <+: s := by
  constructor
  · rintro ⟨hlen, htake⟩
    have h2 := List.take_append_drop p.length s
    rw [htake] at h2
    exact ⟨s.drop p.length, h2⟩
  · rintro ⟨t, rfl⟩
    refine ⟨by simp, ?_⟩
    exact List.take_left' rfl

end Autoclaude

namespace Autoclaude

/-- C10: GetCriticVerdict is total and deterministic in the verdict-file
content: it returns NeedsFixes exactly when the content starts with
NEEDS_FIXES, otherwise MinorIssues exactly when it starts with
MINOR_ISSUES, otherwise Approved exactly when it starts with APPROVED, and
Unknown for every other content; an unreadable file gives Unknown with
empty detail, and otherwise the detail is the complete content. -/
theorem C10_verdict_classification (content : GoStr) :
    GetCriticVerdict none = (.unknown, []) ∧
    (GetCriticVerdict (some content)).2 = content ∧
    ((GetCriticVerdict (some content)).1 = .needsFixes ↔
      goStr "NEEDS_FIXES" <+: content) ∧
    ((GetCriticVerdict (some content)).1 = .minorIssues ↔
      (¬ goStr "NEEDS_FIXES" <+: content ∧ goStr "MINOR_ISSUES" <+: content)) ∧
    ((GetCriticVerdict (some content)).1 = .approved ↔
      (¬ goStr "NEEDS_FIXES" <+: content ∧ ¬ goStr "MINOR_ISSUES" <+: content ∧
        goStr "APPROVED" <+: content)) ∧
    ((GetCriticVerdict (some content)).1 = .unknown ↔
      (¬ goStr "NEEDS_FIXES" <+: content ∧ ¬ goStr "MINOR_ISSUES" <+: content ∧
        ¬ goStr "APPROVED" <+: content)) := by
  have hNF : (11 ≤ content.length ∧ content.take 11 = goStr "NEEDS_FIXES") ↔
      goStr "NEEDS_FIXES" <+: content := by
    have h : (goStr "NEEDS_FIXES").length = 11 := rfl
    rw [← h]
    exact takeCond_iff _ _
  have hMI : (12 ≤ content.length ∧ content.take 12 = goStr "MINOR_ISSUES") ↔
      goStr "MINOR_ISSUES" <+: content := by
    have h : (goStr "MINOR_ISSUES").length = 12 := rfl
    rw [← h]
    exact takeCond_iff _ _
  have hAP : (8 ≤ content.length ∧ content.take 8 = goStr "APPROVED") ↔
      goStr "APPROVED" <+: content := by
    have h : (goStr "APPROVED").length = 8 := rfl
    rw [← h]
    exact takeCond_iff _ _
  refine ⟨rfl, ?_, ?_, ?_, ?_, ?_⟩ <;>
    · simp only [GetCriticVerdict]
      split_ifs with h1 h2 h3 <;>
        simp_all [hNF.symm, hMI.symm, hAP.symm]

end Autoclaude

namespace Autoclaude

/-- splitOnNl of a newline-free list is that single line. -/
theorem splitOnNl_no_nl (l : GoStr) (h : ('\n') ∉ l) : splitOnNl l = [l] := by
  induction l with
  | nil => rfl
  | cons c cs ih =>
    simp only [List.mem_cons, not_or] at h
    simp only [splitOnNl]
    rw [if_neg (fun hc => h.1 hc.symm), ih h.2]

/-- splitOnNl peels a newline-free first line off at the first newline. -/
theorem splitOnNl_append (l rest : GoStr) (h : ('\n') ∉ l) :
    splitOnNl (l ++ '\n' :: rest) = l :: splitOnNl rest := by
  induction l with
  | nil => simp [splitOnNl]
  | cons c cs ih =>
    simp only [List.mem_cons, not_or] at h
    simp only [List.cons_append, splitOnNl]
    rw [if_neg (fun hc => h.1 hc.symm)]
    simp only [List.append_eq]
    rw [ih h.2]

/-- splitOnNl inverts joinLines on nonempty lists of newline-free lines. -/
theorem splitOnNl_joinLines (l : GoStr) (ls : List GoStr)
    (h : ∀ x ∈ l :: ls, ('\n') ∉ x) :
    splitOnNl (joinLines (l :: ls)) = l :: ls := by
  induction ls generalizing l with
  | nil => exact splitOnNl_no_nl l (h l (by simp))
  | cons m ms ih =>
    have hjoin : joinLines (l :: m :: ms) = l ++ '\n' :: joinLines (m :: ms) := rfl
    rw [hjoin, splitOnNl_append l _ (h l (by simp))]
    rw [ih m (fun x hx => h x (by simp [List.mem_cons] at hx ⊢; tauto))]

/-- A leading white-space character does not change goTrimSpace. -/
theorem goTrimSpace_cons_space (c : Char) (s : GoStr) (h : goIsSpace c = true) :
    goTrimSpace (c :: s) = goTrimSpace s := by
  simp [goTrimSpace, List.dropWhile_cons, h]

/-- goTrimSpace is the identity on a list with non-space end characters. -/
theorem goTrimSpace_of_ends (a b : Char) (m : GoStr)
    (ha : goIsSpace a = false) (hb : goIsSpace b = false) :
    goTrimSpace (a :: (m ++ [b])) = a :: (m ++ [b]) := by
  simp [goTrimSpace, List.dropWhile_cons, ha, hb]

end Autoclaude

namespace Autoclaude

/-- dropWhile is the identity when the head fails the predicate. -/
theorem dropWhile_eq_self_of_head (p : Char → Bool) (s : GoStr)
    (h : ∀ c, s.head? = some c → p c = false) : s.dropWhile p = s := by
  cases s with
  | nil => rfl
  | cons a t => simp [List.dropWhile_cons, h a rfl]

/-- goTrimSpace is the identity when both end characters are non-space. -/
theorem goTrimSpace_eq_self (s : GoStr)
    (h1 : ∀ c, s.head? = some c → goIsSpace c = false)
    (h2 : ∀ c, s.getLast? = some c → goIsSpace c = false) :
    goTrimSpace s = s := by
  unfold goTrimSpace
  rw [dropWhile_eq_self_of_head _ _ h1]
  rw [dropWhile_eq_self_of_head _ _ (fun c hc => h2 c (by rwa [List.head?_reverse] at hc))]
  exact List.reverse_reverse s

/-- The unchecked-box marker is a prefix of a line exactly when the line's
first five characters are the marker. -/
theorem box_marker_pfx (pre rest : GoStr) (hl : pre.length = (goStr "- [ ]").length) :
    goHasPrefix (pre ++ rest) (goStr "- [ ]") = (decide (pre = goStr "- [ ]")) := by
  by_cases hpre : pre = goStr "- [ ]"
  · subst hpre
    simp [goHasPrefix]
  · simp [goHasPrefix, hpre]
    intro hp
    obtain ⟨hlen, htake⟩ := (takeCond_iff _ _).mpr hp
    rw [← hl] at htake
    rw [List.take_left] at htake
    exact hpre htake

end Autoclaude

namespace Autoclaude

/-- A rendered pending-task checkbox line is trimmed to itself. -/
theorem trim_pending_line (subj : GoStr) :
    goTrimSpace (goStr "- [ ] " ++ (goStr "**" ++ subj ++ goStr "**")) =
      goStr "- [ ] " ++ (goStr "**" ++ subj ++ goStr "**") := by
  apply goTrimSpace_eq_self
  · intro c hc
    rw [List.head?_append, show (goStr "- [ ] ").head? = some ('-') from rfl] at hc
    simp only [Option.or_some, Option.some.injEq] at hc
    subst hc
    decide
  · intro c hc
    rw [List.getLast?_append, List.getLast?_append,
      show (goStr "**").getLast? = some ('*') from rfl] at hc
    simp only [Option.or_some, Option.some.injEq] at hc
    subst hc
    decide

/-- A rendered completed-task checkbox line is trimmed to itself. -/
theorem trim_completed_line (subj : GoStr) :
    goTrimSpace (goStr "- [x] " ++ (goStr "**" ++ subj ++ goStr "**")) =
      goStr "- [x] " ++ (goStr "**" ++ subj ++ goStr "**") := by
  apply goTrimSpace_eq_self
  · intro c hc
    rw [List.head?_append, show (goStr "- [x] ").head? = some ('-') from rfl] at hc
    simp only [Option.or_some, Option.some.injEq] at hc
    subst hc
    decide
  · intro c hc
    rw [List.getLast?_append, List.getLast?_append,
      show (goStr "**").getLast? = some ('*') from rfl] at hc
    simp only [Option.or_some, Option.some.injEq] at hc
    subst hc
    decide

/-- The unchecked-box test accepts a rendered pending-task line. -/
theorem test_pending_line (subj : GoStr) :
    isUncheckedTodoLine (goStr "- [ ] " ++ (goStr "**" ++ subj ++ goStr "**")) = true := by
  rw [isUncheckedTodoLine, trim_pending_line]
  rw [show goStr "- [ ] " = goStr "- [ ]" ++ [' '] from rfl, List.append_assoc]
  simp [goHasPrefix]

/-- The unchecked-box test rejects a rendered completed-task line. -/
theorem test_completed_line (subj : GoStr) :
    isUncheckedTodoLine (goStr "- [x] " ++ (goStr "**" ++ subj ++ goStr "**")) = false := by
  rw [isUncheckedTodoLine, trim_completed_line]
  rw [show goStr "- [x] " = goStr "- [x]" ++ [' '] from rfl, List.append_assoc]
  rw [box_marker_pfx (goStr "- [x]") _ (by decide)]
  decide

/-- The unchecked-box test rejects a priority line. -/
theorem test_priority_line (p : Priority) :
    isUncheckedTodoLine (priorityLine p) = false := by
  cases p <;> decide

end Autoclaude

namespace Autoclaude

/-- Stripping the marker and trimming a rendered pending-task line leaves
exactly the bold subject text. -/
theorem strip_pending_line (subj : GoStr) :
    goTrimSpace (goTrimPrefix
        (goTrimSpace (goStr "- [ ] " ++ (goStr "**" ++ subj ++ goStr "**")))
        (goStr "- [ ]")) =
      goStr "**" ++ subj ++ goStr "**" := by
  rw [trim_pending_line]
  rw [show goStr "- [ ] " = goStr "- [ ]" ++ [' '] from rfl, List.append_assoc]
  rw [goTrimPrefix, if_pos ⟨[' '] ++ (goStr "**" ++ subj ++ goStr "**"), rfl⟩]
  rw [List.drop_left]
  rw [show ([' '] ++ (goStr "**" ++ subj ++ goStr "**")) =
      ' ' :: (goStr "**" ++ subj ++ goStr "**") from rfl]
  rw [goTrimSpace_cons_space _ _ (by decide)]
  apply goTrimSpace_eq_self
  · intro c hc
    rw [List.head?_append, List.head?_append,
      show (goStr "**").head? = some ('*') from rfl] at hc
    simp only [Option.or_some, Option.some.injEq] at hc
    subst hc
    decide
  · intro c hc
    rw [List.getLast?_append, show (goStr "**").getLast? = some ('*') from rfl] at hc
    simp only [Option.or_some, Option.some.injEq] at hc
    subst hc
    decide

/-- The first unchecked-box line among the rendered task entries is the
checkbox line of the first pending task, in declaration order. -/
theorem findBox (backlog : List Task) :
    (backlog.flatMap renderTaskLines).find? isUncheckedTodoLine =
      (backlog.find? (fun t => t.status == TaskStatus.pending)).map
        (fun t => goStr "- [ ] " ++ (goStr "**" ++ t.subject ++ goStr "**")) := by
  induction backlog with
  | nil => rfl
  | cons t ts ih =>
    cases hstatus : t.status with
    | pending =>
      have hr : renderTaskLines t =
          [goStr "- [ ] " ++ (goStr "**" ++ t.subject ++ goStr "**"),
            priorityLine t.priority] := by
        rw [renderTaskLines, hstatus]
      rw [List.flatMap_cons, hr, List.cons_append,
        List.find?_cons_of_pos _ (test_pending_line t.subject),
        List.find?_cons_of_pos _ (by rw [hstatus]; rfl)]
      rfl
    | completed =>
      have hr : renderTaskLines t =
          [goStr "- [x] " ++ (goStr "**" ++ t.subject ++ goStr "**"),
            priorityLine t.priority] := by
        rw [renderTaskLines, hstatus]
      rw [List.flatMap_cons, hr, List.cons_append, List.cons_append,
        List.find?_cons_of_neg _ (by rw [test_completed_line t.subject]; exact fun hx => nomatch hx),
        List.find?_cons_of_neg _ (by rw [test_priority_line t.priority]; exact fun hx => nomatch hx),
        List.find?_cons_of_neg _ (by rw [hstatus]; exact fun hx => nomatch hx)]
      simpa using ih

end Autoclaude

namespace Autoclaude

/-- No line of a rendered TODO.md contains a newline, given that no
subject does. -/
theorem todoLines_no_nl (backlog : List Task)
    (h : ∀ t ∈ backlog, ('\n') ∉ t.subject) :
    ∀ x ∈ todoLines backlog, ('\n') ∉ x := by
  intro x hx
  rw [todoLines, List.mem_append] at hx
  rcases hx with hx | hx
  · simp only [todoHeaderLines, List.mem_cons, List.not_mem_nil, or_false] at hx
    rcases hx with rfl | rfl | rfl <;> decide
  · rw [List.mem_flatMap] at hx
    obtain ⟨t, ht, hline⟩ := hx
    have hsub := h t ht
    cases hstatus : t.status with
    | pending =>
      rw [renderTaskLines, hstatus] at hline
      simp only [List.mem_cons, List.not_mem_nil, or_false] at hline
      rcases hline with rfl | rfl
      · intro hmem
        simp only [List.mem_append] at hmem
        rcases hmem with hm | (hm | hm) | hm
        · revert hm; decide
        · revert hm; decide
        · exact hsub hm
        · revert hm; decide
      · cases t.priority <;> decide
    | completed =>
      rw [renderTaskLines, hstatus] at hline
      simp only [List.mem_cons, List.not_mem_nil, or_false] at hline
      rcases hline with rfl | rfl
      · intro hmem
        simp only [List.mem_append] at hmem
        rcases hmem with hm | (hm | hm) | hm
        · revert hm; decide
        · revert hm; decide
        · exact hsub hm
        · revert hm; decide
      · cases t.priority <;> decide

end Autoclaude

namespace Autoclaude

/-- C9 amended: nextTask() ignores priority: GetNextTodo returns the bold
subject text of the first pending task in declaration order (or the
sentinel when none is pending), for any backlog rendered in the documented
TODO.md format. -/
theorem C9_decl_order (backlog : List Task)
    (h : ∀ t ∈ backlog, ('\n') ∉ t.subject) :
    GetNextTodo (some (renderTodoMd backlog)) =
      match backlog.find? (fun t => t.status == TaskStatus.pending) with
      | some t => goStr "**" ++ t.subject ++ goStr "**"
      | none => goStr "(no incomplete TODOs)" := by
  have hcons : todoLines backlog =
      goStr "# TODOs" :: ([] :: (goStr "## Pending" :: backlog.flatMap renderTaskLines)) := rfl
  have hsplit : splitOnNl (renderTodoMd backlog) = todoLines backlog := by
    rw [renderTodoMd, hcons]
    exact splitOnNl_joinLines _ _ (by rw [← hcons]; exact todoLines_no_nl backlog h)
  have hheads :
      (todoLines backlog).find? isUncheckedTodoLine =
        (backlog.flatMap renderTaskLines).find? isUncheckedTodoLine := by
    rw [hcons]
    rw [List.find?_cons_of_neg _ (by intro hx; revert hx; decide),
      List.find?_cons_of_neg _ (by intro hx; revert hx; decide),
      List.find?_cons_of_neg _ (by intro hx; revert hx; decide)]
  simp only [GetNextTodo]
  rw [hsplit, hheads, findBox]
  cases hcase : backlog.find? (fun t => t.status == TaskStatus.pending) with
  | none => rfl
  | some t =>
    simp only [Option.map_some]
    exact strip_pending_line t.subject

end Autoclaude

namespace Autoclaude

/-- With an always-NeedsFixes verdict stream the inner loop runs the
critic three times, the fixer twice, counts three rejections and two fix
attempts, and ends unapproved. -/
theorem cycle_all_needs_fixes (verdictAt : Nat → CriticVerdict)
    (h : ∀ i, i < maxFixRetries → verdictAt i = .needsFixes) (st : Stats) :
    criticCycle verdictAt st =
      ⟨{ st with claudeRuns := st.claudeRuns + 5, criticRejections := st.criticRejections + 3, fixAttempts := st.fixAttempts + 2 },
        maxFixRetries, maxFixRetries - 1, false⟩ := by
  have h0 := h 0 (by decide)
  have h1 := h 1 (by decide)
  have h2 := h 2 (by decide)
  simp [criticCycle, criticCycleFrom, maxFixRetries, h0, h1, h2]

end Autoclaude

namespace Autoclaude

/-- C1: for a task whose critic review returns NeedsFixes on every
attempt, the loop (with maxFixRetries = 3) invokes the fixer exactly
maxFixRetries - 1 times, counts a rejection on each of the three
NeedsFixes verdicts, abandons the task unapproved, and the outer loop then
advances to the next backlog check instead of looping on this task. -/
theorem C1_bounded_fix_retries (verdictAt : Nat → CriticVerdict) (st : Stats)
    (pendingRead : Nat → Option GoStr) (verdicts : Nat → Nat → CriticVerdict)
    (k fuel : Nat) (c : LoopCounts)
    (h : ∀ i, i < maxFixRetries → verdictAt i = .needsFixes)
    (hpend : hasPendingTasks (pendingRead k) = true)
    (hv : verdicts k = verdictAt) :
    maxFixRetries = 3 ∧
    (criticCycle verdictAt st).fixerRuns = maxFixRetries - 1 ∧
    (criticCycle verdictAt st).wasApproved = false ∧
    (criticCycle verdictAt st).stats.criticRejections = st.criticRejections + 3 ∧
    (criticCycle verdictAt st).stats.todosCompleted = st.todosCompleted ∧
    (criticCycle verdictAt st).criticRuns = maxFixRetries ∧
    runLoop pendingRead verdicts (fuel + 1) k st c =
      runLoop pendingRead verdicts fuel (k + 1) (taskStep verdictAt st).stats
        ⟨c.coderRuns + 1, c.criticRuns + maxFixRetries, c.fixerRuns + (maxFixRetries - 1)⟩ := by
  have hcyc := cycle_all_needs_fixes verdictAt h
  refine ⟨rfl, ?_, ?_, ?_, ?_, ?_, ?_⟩
  · rw [hcyc st]
  · rw [hcyc st]
  · rw [hcyc st]
  · rw [hcyc st]
  · rw [hcyc st]
  · rw [runLoop, if_pos hpend, hv]
    show runLoop pendingRead verdicts fuel (k + 1) (taskStep verdictAt st).stats
        ⟨c.coderRuns + 1, c.criticRuns + (taskStep verdictAt st).criticRuns,
          c.fixerRuns + (taskStep verdictAt st).fixerRuns⟩ = _
    rw [show (taskStep verdictAt st).criticRuns = maxFixRetries by rw [taskStep, hcyc],
      show (taskStep verdictAt st).fixerRuns = maxFixRetries - 1 by rw [taskStep, hcyc]]

/-- C1 witness: the theorem applied to the constant NeedsFixes verdict
stream, fresh stats, a pending first check and no fuel beyond it. -/
theorem C1_bounded_fix_retries_witness :
    maxFixRetries = 3 ∧
    (criticCycle (fun _ => .needsFixes) freshStats).fixerRuns = maxFixRetries - 1 ∧
    (criticCycle (fun _ => .needsFixes) freshStats).wasApproved = false ∧
    (criticCycle (fun _ => .needsFixes) freshStats).stats.criticRejections =
      freshStats.criticRejections + 3 ∧
    (criticCycle (fun _ => .needsFixes) freshStats).stats.todosCompleted =
      freshStats.todosCompleted ∧
    (criticCycle (fun _ => .needsFixes) freshStats).criticRuns = maxFixRetries ∧
    runLoop (fun _ => some (goStr "yes")) (fun _ _ => .needsFixes) 1 0 freshStats noRuns =
      runLoop (fun _ => some (goStr "yes")) (fun _ _ => .needsFixes) 0 1
        (taskStep (fun _ => .needsFixes) freshStats).stats
        ⟨noRuns.coderRuns + 1, noRuns.criticRuns + maxFixRetries,
          noRuns.fixerRuns + (maxFixRetries - 1)⟩ :=
  C1_bounded_fix_retries (fun _ => .needsFixes) freshStats
    (fun _ => some (goStr "yes")) (fun _ _ => .needsFixes) 0 0 noRuns
    (fun i _ => rfl) (by decide) rfl

end Autoclaude

namespace Autoclaude

/-- C5: with one pending task and the verdict sequence NeedsFixes then
Approved, the loop exits toward the evaluator after running the coder
once, the critic twice and the fixer once, with fixAttempts, fixSuccesses
and todosCompleted all 1. -/
theorem C5_one_task_fix_then_approve :
    (runLoop (fun k => if k = 0 then some (goStr "yes") else some (goStr "no"))
        (fun _ i => if i = 0 then .needsFixes else .approved)
        2 0 freshStats noRuns).map
      (fun r => (r.2.coderRuns, r.2.criticRuns, r.2.fixerRuns,
        r.1.fixAttempts, r.1.fixSuccesses, r.1.todosCompleted)) =
    some (1, 2, 1, 1, 1, 1) := by decide

/-- C8: a missing or unreadable backlog artifact makes every pending-work
probe report false, and with such a read at the current check the outer
loop exits toward the evaluator at once, leaving stats and counts as they
are. -/
theorem C8_unreadable_backlog_fails_open
    (pendingRead : Nat → Option GoStr) (verdicts : Nat → Nat → CriticVerdict)
    (k : Nat) (st : Stats) (c : LoopCounts)
    (h : pendingRead k = none) :
    hasPendingTasks none = false ∧
    hasIncompleteTodos none = false ∧
    hasIncompleteTodosErr none = false ∧
    runLoop pendingRead verdicts 1 k st c = some (st, c) := by
  refine ⟨rfl, rfl, rfl, ?_⟩
  rw [runLoop, h]
  rfl

/-- C8 witness: the theorem applied to an always-failing backlog read. -/
theorem C8_unreadable_backlog_fails_open_witness :
    hasPendingTasks none = false ∧
    hasIncompleteTodos none = false ∧
    hasIncompleteTodosErr none = false ∧
    runLoop (fun _ => none) (fun _ _ => .approved) 1 0 freshStats noRuns =
      some (freshStats, noRuns) :=
  C8_unreadable_backlog_fails_open (fun _ => none) (fun _ _ => .approved)
    0 freshStats noRuns rfl

/-- C6: after a work-producing phase whose head equals the recorded before
marker, the commit enforcer makes no commit when the tree is clean, and
with a dirty tree stages everything and makes exactly one commit carrying
the lowercased phase tag, leaving the tree clean. -/
theorem C6_commit_enforcer (g : GitState) (phase : GoStr) :
    (g.dirty = false →
      checkCommitCreated (getCommitHash g) phase g = (g, 0)) ∧
    (g.dirty = true →
      checkCommitCreated (getCommitHash g) phase g =
        (⟨forceCommitMsg phase :: g.commits, false⟩, 1) ∧
      (checkCommitCreated (getCommitHash g) phase g).1.dirty = false ∧
      (checkCommitCreated (getCommitHash g) phase g).2 = 1 ∧
      (checkCommitCreated (getCommitHash g) phase g).1.commits.head? =
        some (forceCommitMsg phase) ∧
      goToLower phase <:+: forceCommitMsg phase) := by
  have hinfix : goToLower phase <:+: forceCommitMsg phase := by
    refine ⟨goStr "autoclaude: ", goStr " changes (auto-committed)", ?_⟩
    rw [forceCommitMsg]
  constructor
  · intro hclean
    rw [checkCommitCreated, if_pos rfl, forceCommit, if_pos hclean]
  · intro hdirty
    have hstep : checkCommitCreated (getCommitHash g) phase g =
        (⟨forceCommitMsg phase :: g.commits, false⟩, 1) := by
      rw [checkCommitCreated, if_pos rfl, forceCommit, if_neg (by rw [hdirty]; decide)]
    exact ⟨hstep, by rw [hstep], by rw [hstep], by rw [hstep]; rfl, hinfix⟩

/-- C6 witness: the theorem applied to a clean and to a dirty repository. -/
theorem C6_commit_enforcer_witness :
    checkCommitCreated (getCommitHash ⟨[], false⟩) (goStr "Coder") ⟨[], false⟩ =
      (⟨[], false⟩, 0) ∧
    checkCommitCreated (getCommitHash ⟨[], true⟩) (goStr "Coder") ⟨[], true⟩ =
      (⟨[forceCommitMsg (goStr "Coder")], false⟩, 1) :=
  ⟨(C6_commit_enforcer ⟨[], false⟩ (goStr "Coder")).1 rfl,
    ((C6_commit_enforcer ⟨[], true⟩ (goStr "Coder")).2 rfl).1⟩

/-- C7 counterexample: one Save over old record text with new marshalled
text exposes the truncated empty file, which is neither the previous nor
the new snapshot, so the write is not atomic. -/
theorem C7_counterexample :
    ¬ (∀ x ∈ saveObservableContents (goStr "\x7b \"step\": \"coder\" \x7d")
          (goStr "\x7b \"step\": \"critic\" \x7d"),
        x = goStr "\x7b \"step\": \"coder\" \x7d" ∨
        x = goStr "\x7b \"step\": \"critic\" \x7d") := by decide

/-- C7 amended: Save writes the marshalled record with one truncating
WriteFile: a reader observes the previous snapshot, the truncated empty
file, or the new snapshot, and a completed save always ends with the full
new record. -/
theorem C7_save_not_atomic (old data x : GoStr)
    (hx : x ∈ saveObservableContents old data) :
    (x = old ∨ x = [] ∨ x = data) ∧
    (saveObservableContents old data).getLast? = some data := by
  refine ⟨?_, rfl⟩
  simp only [saveObservableContents, List.mem_cons, List.not_mem_nil, or_false] at hx
  tauto

/-- C7 witness: the amended theorem applied to the truncated intermediate
state of a concrete save. -/
theorem C7_save_not_atomic_witness :
    (([] : GoStr) = goStr "\x7b\x7d" ∨ ([] : GoStr) = [] ∨ ([] : GoStr) = goStr "\x7b1\x7d") ∧
    (saveObservableContents (goStr "\x7b\x7d") (goStr "\x7b1\x7d")).getLast? =
      some (goStr "\x7b1\x7d") :=
  C7_save_not_atomic (goStr "\x7b\x7d") (goStr "\x7b1\x7d") [] (by decide)

end Autoclaude

namespace Autoclaude

/-- C2: every bridge variant, on an input with stop_hook_active set,
emits allow immediately and performs no termination action, so the second
of two consecutive bridge calls with stop_hook_active set never kills. -/
theorem C2_stop_hook_active_allows (inp : HookInput) (env : BridgeEnv)
    (h : inp.stopHookActive = true) :
    runContinueV1 (.content (some inp)) env = ⟨.allow, false⟩ ∧
    runContinueV2 (.content (some inp)) env = ⟨.allow, false⟩ ∧
    runEvaluatorDone (.content (some inp)) env = ⟨.allow, false⟩ ∧
    runPlannerDoneV1 (.content (some inp)) = ⟨.allow, false⟩ ∧
    runPlannerDoneV2 (.content (some inp)) env = ⟨.allow, false⟩ ∧
    runPlannerDoneV3 (.content (some inp)) = ⟨.allow, false⟩ := by
  refine ⟨?_, ?_, ?_, ?_, ?_, ?_⟩ <;>
    simp [runContinueV1, runContinueV2, runEvaluatorDone,
      runPlannerDoneV1, runPlannerDoneV2, runPlannerDoneV3, h]

/-- C2 witness: the theorem applied to a concrete active-hook input. -/
theorem C2_stop_hook_active_allows_witness :
    runContinueV1 (.content (some ⟨[], [], true, [], []⟩))
        ⟨none, none, .ok [], .ok [], .ok [], none, false, false⟩ = ⟨.allow, false⟩ ∧
    runContinueV2 (.content (some ⟨[], [], true, [], []⟩))
        ⟨none, none, .ok [], .ok [], .ok [], none, false, false⟩ = ⟨.allow, false⟩ ∧
    runEvaluatorDone (.content (some ⟨[], [], true, [], []⟩))
        ⟨none, none, .ok [], .ok [], .ok [], none, false, false⟩ = ⟨.allow, false⟩ ∧
    runPlannerDoneV1 (.content (some ⟨[], [], true, [], []⟩)) = ⟨.allow, false⟩ ∧
    runPlannerDoneV2 (.content (some ⟨[], [], true, [], []⟩))
        ⟨none, none, .ok [], .ok [], .ok [], none, false, false⟩ = ⟨.allow, false⟩ ∧
    runPlannerDoneV3 (.content (some ⟨[], [], true, [], []⟩)) = ⟨.allow, false⟩ :=
  C2_stop_hook_active_allows ⟨[], [], true, [], []⟩
    ⟨none, none, .ok [], .ok [], .ok [], none, false, false⟩ rfl

/-- C3: with stop_hook_active clear, the evaluator and planner bridges
kill the agent exactly when their completion marker exists, emit allow in
either case, and take no termination action when the marker is absent. -/
theorem C3_marker_gated_termination (inp : HookInput) (env : BridgeEnv)
    (h : inp.stopHookActive = false) :
    runEvaluatorDone (.content (some inp)) env = ⟨.allow, env.evaluationComplete⟩ ∧
    ((runEvaluatorDone (.content (some inp)) env).killed = true ↔
      env.evaluationComplete = true) ∧
    (runEvaluatorDone (.content (some inp)) env).decision = .allow ∧
    runPlannerDoneV2 (.content (some inp)) env = ⟨.allow, env.planningComplete⟩ ∧
    ((runPlannerDoneV2 (.content (some inp)) env).killed = true ↔
      env.planningComplete = true) ∧
    (runPlannerDoneV2 (.content (some inp)) env).decision = .allow := by
  refine ⟨?_, ?_, ?_, ?_, ?_, ?_⟩ <;>
    simp [runEvaluatorDone, runPlannerDoneV2, h]

/-- C3 witness: the theorem applied to a concrete inactive-hook input with
the evaluation marker present and the planning marker absent. -/
theorem C3_marker_gated_termination_witness :
    runEvaluatorDone (.content (some ⟨[], [], false, [], []⟩))
        ⟨none, none, .ok [], .ok [], .ok [], none, false, true⟩ = ⟨.allow, true⟩ ∧
    ((runEvaluatorDone (.content (some ⟨[], [], false, [], []⟩))
        ⟨none, none, .ok [], .ok [], .ok [], none, false, true⟩).killed = true ↔
      true = true) ∧
    (runEvaluatorDone (.content (some ⟨[], [], false, [], []⟩))
        ⟨none, none, .ok [], .ok [], .ok [], none, false, true⟩).decision = .allow ∧
    runPlannerDoneV2 (.content (some ⟨[], [], false, [], []⟩))
        ⟨none, none, .ok [], .ok [], .ok [], none, false, true⟩ = ⟨.allow, false⟩ ∧
    ((runPlannerDoneV2 (.content (some ⟨[], [], false, [], []⟩))
        ⟨none, none, .ok [], .ok [], .ok [], none, false, true⟩).killed = true ↔
      false = true) ∧
    (runPlannerDoneV2 (.content (some ⟨[], [], false, [], []⟩))
        ⟨none, none, .ok [], .ok [], .ok [], none, false, true⟩).decision = .allow :=
  C3_marker_gated_termination ⟨[], [], false, [], []⟩
    ⟨none, none, .ok [], .ok [], .ok [], none, false, true⟩ rfl

/-- C4 counterexample: the first continue bridge, on a failing stdin read,
emits the block decision with reason "Failed to read stdin" rather than
treating the unreadable input as allow. -/
theorem C4_counterexample :
    (runContinueV1 .readError
        ⟨none, none, .ok [], .ok [], .ok [], none, false, false⟩).decision =
      .block (goStr "Failed to read stdin") := rfl

/-- C4 amended: every bridge always emits a decision; the kill-based
continue, evaluator, and planner bridges treat an unreadable stdin as
allow with no termination and emit allow on an empty or unparseable
payload, while the first (prompt-chaining) continue bridge emits block
with reason "Failed to read stdin" on an unreadable stdin. -/
theorem C4_fail_open_decisions (env : BridgeEnv) :
    runContinueV2 .readError env = ⟨.allow, false⟩ ∧
    runEvaluatorDone .readError env = ⟨.allow, false⟩ ∧
    runPlannerDoneV1 .readError = ⟨.allow, false⟩ ∧
    runPlannerDoneV2 .readError env = ⟨.allow, false⟩ ∧
    runPlannerDoneV3 .readError = ⟨.allow, false⟩ ∧
    (runContinueV2 (.content none) env).decision = .allow ∧
    (runEvaluatorDone (.content none) env).decision = .allow ∧
    (runPlannerDoneV1 (.content none)).decision = .allow ∧
    (runPlannerDoneV2 (.content none) env).decision = .allow ∧
    (runPlannerDoneV3 (.content none)).decision = .allow ∧
    (runContinueV1 .readError env).decision = .block (goStr "Failed to read stdin") := by
  refine ⟨rfl, rfl, rfl, rfl, rfl, ?_, rfl, rfl, rfl, rfl, rfl⟩
  rw [runContinueV2]
  cases env.stateRead <;> rfl

end Autoclaude

namespace Autoclaude

/-- C9 counterexample: in a rendered backlog where a low-priority pending
task A is declared before a high-priority pending task B, the spec
ordering picks B but GetNextTodo returns the entry of A and the returned
text never mentions B. -/
theorem C9_counterexample :
    specNextTask [⟨goStr "A", .pending, .low⟩, ⟨goStr "B", .pending, .high⟩] =
      some ⟨goStr "B", .pending, .high⟩ ∧
    GetNextTodo (some (renderTodoMd
        [⟨goStr "A", .pending, .low⟩, ⟨goStr "B", .pending, .high⟩])) = goStr "**A**" ∧
    ¬ goStr "B" <:+: GetNextTodo (some (renderTodoMd
        [⟨goStr "A", .pending, .low⟩, ⟨goStr "B", .pending, .high⟩])) :=
  ⟨by decide, by decide, by decide⟩

/-- C9 witness: the amended theorem applied to the two-task backlog of the
counterexample. -/
theorem C9_decl_order_witness :
    GetNextTodo (some (renderTodoMd
        [⟨goStr "A", .pending, .low⟩, ⟨goStr "B", .pending, .high⟩])) =
      match ([⟨goStr "A", .pending, .low⟩, ⟨goStr "B", .pending, .high⟩] : List Task).find?
          (fun t => t.status == TaskStatus.pending) with
      | some t => goStr "**" ++ t.subject ++ goStr "**"
      | none => goStr "(no incomplete TODOs)" :=
  C9_decl_order [⟨goStr "A", .pending, .low⟩, ⟨goStr "B", .pending, .high⟩] (by decide)

end Autoclaude
